import Mathlib

/-!
Shallow embedding of the pnetwork/kafka-connector core (`src/main.go`):
startup configuration, the broker connect loop, the topic→function routing
table, the refresh driver, and the consume–match–invoke–acknowledge loop.
Side effects (HTTP calls, log lines, offset marks) are modelled as event
traces; external results (broker attempts, HTTP responses, registry
lookups) are inputs to the embedded functions.
-/

namespace KafkaConnector

/-- Go `time.Duration`: a count of nanoseconds (int64; the connector only
ever uses small positive values, so plain `Int` suffices). -/
abbrev Duration := Int

def millisecond : Duration := 1000000

def second : Duration := 1000000000

/-- `connectorConfig` from `main.go` lines 28–35. -/
structure connectorConfig where
  gatewayURL : String
  upstreamTimeout : Duration
  topics : List String
  printResponse : Bool
  rebuildInterval : Duration
  broker : String
deriving DecidableEq

/-- The process environment: `os.LookupEnv` gives `some` when the variable
is set. -/
abbrev Env := String → Option String

/-- Go's `strings.Split(s, ",")` on the character list: splits around
every comma; the empty input yields one empty segment, matching
`strings.Split("", ",") == [""]`. -/
def splitOnComma : List Char → List (List Char)
  | [] => [[]]
  | c :: rest =>
    let r := splitOnComma rest
    if c = ',' then [] :: r
    else
      match r with
      | [] => [[c]]
      | seg :: segs => (c :: seg) :: segs

/-- Go's `strings.Split(val, ",")` (standard library, embedded here over
the string's characters). -/
def stringsSplitComma (val : String) : List String :=
  (splitOnComma val.data).map String.mk

/-- The topic-splitting loop of `buildConnectorConfig` (lines 187–192):
`for _, topic := range strings.Split(val, ",") { if len(topic) > 0 { topics = append(topics, topic) } }`. -/
def splitTopics (val : String) : List String :=
  (stringsSplitComma val).foldl
    (fun acc topic => if 0 < topic.length then acc ++ [topic] else acc) []

/-- Topics read from the environment (lines 185–192): empty list when the
`topics` variable is unset. -/
def topicsFrom (env : Env) : List String :=
  match env "topics" with
  | some val => splitTopics val
  | none => []

/-- The message of `log.Fatal` at line 194. -/
def topicsFatalMessage : String :=
  "Provide a list of topics i.e. topics=\"payment_published,slack_joined\""

/-- `buildConnectorConfig` (lines 178–226). `parseDuration` stands for the
Go standard library's `time.ParseDuration` (`none` models a parse error);
`.error` models `log.Fatal`. The Go struct literal at lines 219–225 omits
`printResponse`, so it takes the zero value `false`. -/
def buildConnectorConfig (parseDuration : String → Option Duration) (env : Env) :
    Except String connectorConfig :=
  let broker := (env "broker_host").getD "kafka"
  let topics := topicsFrom env
  if topics.length = 0 then
    .error topicsFatalMessage
  else
    let gatewayURL := (env "gateway_url").getD "http://gateway:8080"
    let upstreamTimeout :=
      match env "upstream_timeout" with
      | some val => (parseDuration val).getD (30 * second)
      | none => 30 * second
    let rebuildInterval :=
      match env "rebuild_interval" with
      | some val => (parseDuration val).getD (3 * second)
      | none => 3 * second
    .ok { gatewayURL := gatewayURL, upstreamTimeout := upstreamTimeout,
          topics := topics, printResponse := false,
          rebuildInterval := rebuildInterval, broker := broker }

/-- An opaque-to-the-loop handle returned by `sarama.NewClient`; identity
is all the connect loop inspects. -/
abbrev Client := Nat

/-- Outcome of one iteration of the connect loop in `main` (lines 44–56),
applied to the attempt's result `(client, err)`. `breakLoop`: the `break`
at line 48 fires; `closedClient`: the handle passed to `client.Close()`
at line 51, when any; `sleepSeconds`: the fixed backoff at line 55. -/
structure AttemptOutcome where
  breakLoop : Bool
  closedClient : Option Client
  sleepSeconds : Nat
deriving DecidableEq

/-- One iteration of the connect loop body (lines 46–55). -/
def connectAttempt (client : Option Client) (err : Option String) : AttemptOutcome :=
  if client.isSome && err.isNone then
    { breakLoop := true, closedClient := none, sleepSeconds := 0 }
  else
    { breakLoop := false, closedClient := client, sleepSeconds := 1 }

/-- The connect loop of `main` run over a finite stream of attempt results:
`some c` when some attempt broke out of the loop with client `c`, `none`
when every listed attempt failed and the loop is still retrying. -/
def connectLoop : List (Option Client × Option String) → Option Client
  | [] => none
  | (c, e) :: rest => if (connectAttempt c e).breakLoop then c else connectLoop rest

/-- `sarama.ConsumerMessage`, restricted to the fields the loop reads. -/
structure ConsumerMessage where
  topic : String
  partition : Int
  offset : Int
  value : List UInt8
deriving DecidableEq

/-- Modelled from the spec: the subscription record produced by
`types.FunctionLookupBuilder.Build` (the `types` package is not under
`src/`; §3 and §6 describe its output as a flat list of
(functionIdentifier, topic) pairs). -/
structure SubscriptionRecord where
  functionIdentifier : String
  topic : String
deriving DecidableEq

/-- Modelled from the spec: the insertion of one subscription record while
`types.TopicMap.Sync` groups the list by topic (§4.2: the sync builds a
brand-new mapping from the given list, grouping by topic). The mapping is
an association list topic → accumulated function identifiers. -/
def insertRecord (m : List (String × List String)) (r : SubscriptionRecord) :
    List (String × List String) :=
  match m with
  | [] => [(r.topic, [r.functionIdentifier])]
  | (t, fns) :: rest =>
    if t = r.topic then (t, fns ++ [r.functionIdentifier]) :: rest
    else (t, fns) :: insertRecord rest r

/-- Modelled from the spec: the brand-new mapping `types.TopicMap.Sync`
builds from a subscription list before atomically swapping it in (§4.2). -/
def buildMap (subs : List SubscriptionRecord) : List (String × List String) :=
  subs.foldl insertRecord []

/-- Modelled from the spec: `types.TopicMap.Match` (§4.2): the current
subscriber set for a topic, or the empty set when the topic is absent. -/
def matchTopic (m : List (String × List String)) (topic : String) : List String :=
  match m with
  | [] => []
  | (t, fns) :: rest => if t = topic then fns else matchTopic rest topic

/-- Result of one `c.Do(httpReq)` call as the dispatch loop observes it
(lines 118–137): a transport error, or a response with status code and
body. `none` body models `res.Body == nil`; in a `some (bytesOut, readErr)`
body, `readErr` records whether `ioutil.ReadAll` returned an error. -/
inductive HttpResult where
  | transportError (err : String)
  | response (status : Int) (body : Option (List UInt8 × Bool))
deriving DecidableEq

def HttpResult.isTransportError : HttpResult → Bool
  | .transportError _ => true
  | .response _ _ => false

/-- Observable effects of the consumer loop, in program order. -/
inductive Event where
  | logInvokeFunction (fn : String)
  | httpPost (url : String) (body : List UInt8)
  | logInvalidResponse (err : String)
  | logErrorReadingBody
  | logResponse (status : Int) (fn : String) (printedBody : Option (List UInt8))
  | markOffset (topic : String) (partition : Int) (offset : Int)
  | logConsumerError (err : String)
  | logRebalance
deriving DecidableEq

/-- The `for _, matchedFunction := range matchedFunctions` body of `mcb`
(lines 110–139). `oracle fn` is the outcome of the HTTP round trip to
`fn`; a transport error executes `return` (line 121), abandoning the rest
of the list. The response log at lines 132–136 prints the body only when
`config.printResponse` is set. -/
def dispatchLoop (config : connectorConfig) (oracle : String → HttpResult)
    (payload : List UInt8) : List String → List Event
  | [] => []
  | fn :: rest =>
    let pre := [Event.logInvokeFunction fn,
                Event.httpPost (config.gatewayURL ++ "/function/" ++ fn) payload]
    match oracle fn with
    | .transportError e => pre ++ [Event.logInvalidResponse e]
    | .response _ none => pre ++ dispatchLoop config oracle payload rest
    | .response status (some (bytesOut, readErr)) =>
      pre ++ (if readErr then [Event.logErrorReadingBody] else [])
          ++ [Event.logResponse status fn
                (if config.printResponse then some bytesOut else none)]
          ++ dispatchLoop config oracle payload rest

/-- `mcb` (lines 106–141): dispatch a consumed message. `matchFn` is
`topicMap.Match` at the instant of the lookup. -/
def mcb (config : connectorConfig) (matchFn : String → List String)
    (oracle : String → HttpResult) (msg : ConsumerMessage) : List Event :=
  if 0 < msg.value.length then dispatchLoop config oracle msg.value (matchFn msg.topic)
  else []

/-- One arrival on the `select` at lines 146–159: a message delivery
(`ok` is the channel's second return value), a consumer error, or a
rebalance notification. -/
inductive BrokerEvent where
  | message (ok : Bool) (msg : ConsumerMessage)
  | consumerError (err : String)
  | notification
deriving DecidableEq

/-- One `select` iteration of the consumer loop (lines 145–160): a
delivered message is dispatched via `mcb` and then its offset is marked
(line 153); errors and notifications are only logged. -/
def consumerStep (config : connectorConfig) (matchFn : String → List String)
    (oracle : String → HttpResult) : BrokerEvent → List Event
  | .message true msg =>
    mcb config matchFn oracle msg
      ++ [Event.markOffset msg.topic msg.partition msg.offset]
  | .message false _ => []
  | .consumerError e => [Event.logConsumerError e]
  | .notification => [Event.logRebalance]

/-- The consumer loop run over a finite stream of broker events. -/
def consumerLoop (config : connectorConfig) (matchFn : String → List String)
    (oracle : String → HttpResult) (evs : List BrokerEvent) : List Event :=
  evs.flatMap (consumerStep config matchFn oracle)

/-- The transport settings `makeClient` (lines 163–176) installs on the
returned `http.Client`. -/
structure HttpClientSettings where
  dialTimeout : Duration
  keepAlive : Duration
  maxIdleConns : Nat
  maxIdleConnsPerHost : Nat
  idleConnTimeout : Duration
deriving DecidableEq

/-- `makeClient` (lines 163–176). -/
def makeClient (timeout : Duration) : HttpClientSettings :=
  { dialTimeout := timeout, keepAlive := 10 * second,
    maxIdleConns := 100, maxIdleConnsPerHost := 100,
    idleConnTimeout := 120 * millisecond }

/-- The HTTP client handed to the lookup builder at line 89:
`makeClient(config.rebuildInterval)`. -/
def lookupBuilderClient (config : connectorConfig) : HttpClientSettings :=
  makeClient config.rebuildInterval

/-- The refresh timer created at line 92: `time.NewTicker(time.Second * 3)`.
Written as a function of the configuration to record that the period does
not depend on it. -/
def tickerPeriod (_config : connectorConfig) : Duration := 3 * second

/-- State of the refresh goroutine (lines 94–104) together with the
published index: `terminated` records that `log.Fatalln` has killed the
process. -/
structure RefreshState where
  index : List (String × List String)
  terminated : Bool
deriving DecidableEq

/-- One refresh tick (lines 96–103). `buildResult` is the outcome of
`lookupBuilder.Build()`; on error `log.Fatalln` terminates the process
(line 99) before `topicMap.Sync` runs; once terminated no tick runs. -/
def refreshTick (st : RefreshState) (buildResult : Except String (List SubscriptionRecord)) :
    RefreshState :=
  if st.terminated then st
  else
    match buildResult with
    | .error _ => { index := st.index, terminated := true }
    | .ok lookups => { index := buildMap lookups, terminated := false }

/-- The refresh goroutine run over a finite stream of tick results. -/
def refreshRun (st : RefreshState) (ticks : List (Except String (List SubscriptionRecord))) :
    RefreshState :=
  ticks.foldl refreshTick st

/-- An operation on the shared topic map, as one atomic step: the spec's
§4.2 contract makes the swap in `Sync` the only mutation and `Match` a
read of one complete snapshot. -/
inductive IndexOp where
  | sync (subs : List SubscriptionRecord)
  | matchQ (topic : String)

/-- An interleaved run of topic-map operations, starting from index `m`;
returns each `matchQ`'s (topic, result) in order. -/
def runOps (m : List (String × List String)) : List IndexOp → List (String × List String)
  | [] => []
  | .sync subs :: rest => runOps (buildMap subs) rest
  | .matchQ t :: rest => (t, matchTopic m t) :: runOps m rest

/-- The HTTP POSTs in a trace: (url, body bytes), in order. -/
def httpPosts (evs : List Event) : List (String × List UInt8) :=
  evs.filterMap fun e =>
    match e with
    | .httpPost url body => some (url, body)
    | _ => none

/-- The offset marks in a trace: (topic, partition, offset). -/
def markData : Event → Option (String × Int × Int)
  | .markOffset t p o => some (t, p, o)
  | _ => none

/-- The messages actually delivered (`ok == true`) in a broker-event
stream, in order. -/
def receivedMessages : List BrokerEvent → List ConsumerMessage
  | [] => []
  | .message true m :: rest => m :: receivedMessages rest
  | .message false _ :: rest => receivedMessages rest
  | .consumerError _ :: rest => receivedMessages rest
  | .notification :: rest => receivedMessages rest

lemma dispatchLoop_no_marks (config : connectorConfig) (oracle : String → HttpResult)
    (payload : List UInt8) (fns : List String) :
    (dispatchLoop config oracle payload fns).filterMap markData = [] := by
  induction fns with
  | nil => rfl
  | cons fn rest ih =>
    cases h : oracle fn with
    | transportError e =>
      simp [dispatchLoop, h, markData]
    | response status body =>
      match body with
      | none => simp [dispatchLoop, h, markData, ih]
      | some (bytesOut, readErr) =>
        cases readErr <;> simp [dispatchLoop, h, markData, ih]

lemma mcb_no_marks (config : connectorConfig) (matchFn : String → List String)
    (oracle : String → HttpResult) (msg : ConsumerMessage) :
    (mcb config matchFn oracle msg).filterMap markData = [] := by
  unfold mcb
  split
  · exact dispatchLoop_no_marks config oracle msg.value (matchFn msg.topic)
  · rfl

lemma httpPosts_dispatchLoop_cons_ok (config : connectorConfig) (oracle : String → HttpResult)
    (payload : List UInt8) (fn : String) (rest : List String)
    (h : (oracle fn).isTransportError = false) :
    httpPosts (dispatchLoop config oracle payload (fn :: rest))
      = (config.gatewayURL ++ "/function/" ++ fn, payload)
          :: httpPosts (dispatchLoop config oracle payload rest) := by
  cases ho : oracle fn with
  | transportError e => rw [ho] at h; simp [HttpResult.isTransportError] at h
  | response status body =>
    match body with
    | none => simp [dispatchLoop, ho, httpPosts]
    | some (bytesOut, readErr) =>
      cases readErr <;> simp [dispatchLoop, ho, httpPosts]

lemma httpPosts_dispatchLoop_cons_err (config : connectorConfig) (oracle : String → HttpResult)
    (payload : List UInt8) (fn : String) (rest : List String)
    (h : (oracle fn).isTransportError = true) :
    httpPosts (dispatchLoop config oracle payload (fn :: rest))
      = [(config.gatewayURL ++ "/function/" ++ fn, payload)] := by
  cases ho : oracle fn with
  | transportError e => simp [dispatchLoop, ho, httpPosts]
  | response status body => rw [ho] at h; simp [HttpResult.isTransportError] at h

def cfgC1 : connectorConfig :=
  { gatewayURL := "http://gateway:8080", upstreamTimeout := 30 * second,
    topics := ["T"], printResponse := false,
    rebuildInterval := 3 * second, broker := "kafka" }

def mtC1 : String → List String := fun t => if t = "T" then ["A", "B"] else []

def oracleC1 : String → HttpResult := fun fn =>
  if fn = "A" then .transportError "connection refused"
  else .response 200 (some ([], false))

def msgC1 : ConsumerMessage :=
  { topic := "T", partition := 0, offset := 41, value := [104, 105] }

/-- Claim C1, counterexample: on a topic whose subscriber set is A and B,
a transport error on the invocation of A executes the `return` at line
121 of `mcb`, so only one HTTP POST is issued and B is never invoked —
the claim's two invocations do not happen. -/
theorem transport_error_aborts_remaining_cex :
    httpPosts (mcb cfgC1 mtC1 oracleC1 msgC1)
      = [("http://gateway:8080/function/A", [104, 105])]
    ∧ (httpPosts (mcb cfgC1 mtC1 oracleC1 msgC1)).length ≠ 2 := by
  constructor
  · rfl
  · decide

/-- Claim C1, amended: for a consumed message with non-empty payload on a
topic whose subscriber set is A then B, if A's invocation does not fail at
the transport level then exactly two HTTP POSTs are issued, to
gatewayURL/function/A and gatewayURL/function/B, each carrying the
unmodified payload bytes; a transport error on A's invocation aborts the
dispatch of B (only A's POST is issued); in either case the message's
offset mark is the last event of its processing step. -/
theorem mcb_two_subscriber_dispatch (cfg : connectorConfig)
    (mt : String → List String) (oracle : String → HttpResult)
    (msg : ConsumerMessage) (A B : String)
    (hmatch : mt msg.topic = [A, B]) (hval : 0 < msg.value.length) :
    ((oracle A).isTransportError = false →
      httpPosts (mcb cfg mt oracle msg)
        = [(cfg.gatewayURL ++ "/function/" ++ A, msg.value),
           (cfg.gatewayURL ++ "/function/" ++ B, msg.value)])
    ∧ ((oracle A).isTransportError = true →
      httpPosts (mcb cfg mt oracle msg)
        = [(cfg.gatewayURL ++ "/function/" ++ A, msg.value)])
    ∧ (consumerStep cfg mt oracle (.message true msg)).getLast?
        = some (Event.markOffset msg.topic msg.partition msg.offset) := by
  refine ⟨?_, ?_, ?_⟩
  · intro hA
    rw [mcb, if_pos hval, hmatch,
      httpPosts_dispatchLoop_cons_ok cfg oracle msg.value A [B] hA]
    cases hB : (oracle B).isTransportError
    · rw [httpPosts_dispatchLoop_cons_ok cfg oracle msg.value B [] hB]
      rfl
    · rw [httpPosts_dispatchLoop_cons_err cfg oracle msg.value B [] hB]
  · intro hA
    rw [mcb, if_pos hval, hmatch,
      httpPosts_dispatchLoop_cons_err cfg oracle msg.value A [B] hA]
  · show ((mcb cfg mt oracle msg) ++ [Event.markOffset msg.topic msg.partition msg.offset]).getLast? = _
    simp

def oracleC1ok : String → HttpResult := fun _ => .response 200 (some ([], false))

/-- Claim C1, witness: at the concrete two-subscriber configuration with
no transport error on A, exactly the two POSTs with the payload bytes are
issued. -/
theorem mcb_two_subscriber_dispatch_witness :
    mtC1 msgC1.topic = ["A", "B"]
    ∧ 0 < msgC1.value.length
    ∧ (oracleC1ok "A").isTransportError = false
    ∧ httpPosts (mcb cfgC1 mtC1 oracleC1ok msgC1)
        = [("http://gateway:8080/function/A", [104, 105]),
           ("http://gateway:8080/function/B", [104, 105])] := by
  refine ⟨rfl, by decide, rfl, ?_⟩
  have h := (mcb_two_subscriber_dispatch cfgC1 mtC1 oracleC1ok msgC1 "A" "B" rfl (by decide)).1 rfl
  exact h

def pd5s : String → Option Duration := fun s =>
  if s = "5s" then some (5 * second) else none

def env5s : Env := fun k =>
  if k = "topics" then some "a"
  else if k = "rebuild_interval" then some "5s"
  else none

/-- Claim C2, counterexample: with `rebuild_interval` parsing to 5
seconds, the configuration's `rebuildInterval` is 5 seconds but the ticker
created at line 92 still fires every 3 seconds (`time.NewTicker(time.Second * 3)`
is hardcoded), so the timer period does not equal the parsed duration. -/
theorem ticker_ignores_rebuild_interval_cex :
    (buildConnectorConfig pd5s env5s).map
        (fun c => (c.rebuildInterval, tickerPeriod c))
      = .ok (5 * second, 3 * second)
    ∧ (3 * second : Duration) ≠ 5 * second := by
  constructor
  · rfl
  · decide

/-- Claim C2, amended: the refresh timer period is fixed at 3 seconds for
every configuration — `rebuild_interval` does not configure it; the
parsed `rebuild_interval` value is instead used as the dial timeout of
the HTTP client handed to the registry lookup builder (line 89). -/
theorem ticker_fixed_three_seconds (cfg : connectorConfig) :
    tickerPeriod cfg = 3 * second
    ∧ (lookupBuilderClient cfg).dialTimeout = cfg.rebuildInterval := by
  exact ⟨rfl, rfl⟩

/-- Claim C3: the consumer loop's offset marks are exactly the received
messages' (topic, partition, offset) triples in arrival order (dispatch
never emits a mark and a dispatch failure never skips one), and within one
message's processing step the single offset mark is the last event — it
happens only after the dispatch step has fully completed. -/
theorem consumer_marks_in_order_after_dispatch (cfg : connectorConfig)
    (mt : String → List String) (oracle : String → HttpResult) :
    (∀ evs : List BrokerEvent,
      (consumerLoop cfg mt oracle evs).filterMap markData
        = (receivedMessages evs).map fun m => (m.topic, m.partition, m.offset))
    ∧ (∀ msg : ConsumerMessage,
      (consumerStep cfg mt oracle (.message true msg)).filterMap markData
          = [(msg.topic, msg.partition, msg.offset)]
      ∧ (consumerStep cfg mt oracle (.message true msg)).getLast?
          = some (Event.markOffset msg.topic msg.partition msg.offset)) := by
  have hstep : ∀ msg : ConsumerMessage,
      (consumerStep cfg mt oracle (.message true msg)).filterMap markData
        = [(msg.topic, msg.partition, msg.offset)] := by
    intro msg
    show ((mcb cfg mt oracle msg) ++ [Event.markOffset _ _ _]).filterMap markData = _
    rw [List.filterMap_append, mcb_no_marks]
    rfl
  refine ⟨?_, fun msg => ⟨hstep msg, ?_⟩⟩
  · intro evs
    induction evs with
    | nil => rfl
    | cons ev rest ih =>
      cases ev with
      | message ok msg =>
        cases ok
        · simpa [consumerLoop, receivedMessages, List.flatMap_cons,
            consumerStep] using ih
        · show ((consumerStep cfg mt oracle (.message true msg))
              ++ consumerLoop cfg mt oracle rest).filterMap markData = _
          rw [List.filterMap_append, hstep msg, ih]
          rfl
      | consumerError e =>
        simpa [consumerLoop, List.flatMap_cons, consumerStep, markData,
          receivedMessages] using ih
      | notification =>
        simpa [consumerLoop, List.flatMap_cons, consumerStep, markData,
          receivedMessages] using ih
  · show ((mcb cfg mt oracle msg) ++ [Event.markOffset _ _ _]).getLast? = _
    simp

/-- Claim C4: a failed registry `Build` on a live refresh tick terminates
the process via `log.Fatalln` without altering the published index (no
`Sync` with the failed result), and from the terminated state no further
tick — whatever its results — runs or changes anything. -/
theorem registry_failure_is_fatal (st : RefreshState) (e : String)
    (ticks : List (Except String (List SubscriptionRecord)))
    (hlive : st.terminated = false) :
    refreshTick st (.error e) = { index := st.index, terminated := true }
    ∧ refreshRun { index := st.index, terminated := true } ticks
        = { index := st.index, terminated := true } := by
  constructor
  · simp [refreshTick, hlive]
  · induction ticks with
    | nil => rfl
    | cons t rest ih =>
      show refreshRun (refreshTick { index := st.index, terminated := true } t) rest = _
      rw [show refreshTick { index := st.index, terminated := true } t
            = { index := st.index, terminated := true } from by simp [refreshTick]]
      exact ih

def stC4 : RefreshState := { index := [("orders", ["f1", "f2"])], terminated := false }

/-- Claim C4, witness: from a live state holding a published index, a
failed tick terminates with the index intact, and two subsequent ticks
(one of them a successful lookup) change nothing. -/
theorem registry_failure_is_fatal_witness :
    refreshTick stC4 (.error "registry unreachable")
      = { index := [("orders", ["f1", "f2"])], terminated := true }
    ∧ refreshRun { index := [("orders", ["f1", "f2"])], terminated := true }
        [.ok [{ functionIdentifier := "f9", topic := "orders" }], .error "again"]
      = { index := [("orders", ["f1", "f2"])], terminated := true } := by
  exact registry_failure_is_fatal stC4 "registry unreachable"
    [.ok [{ functionIdentifier := "f9", topic := "orders" }], .error "again"] rfl

lemma mem_matchTopic_insertRecord (m : List (String × List String))
    (r : SubscriptionRecord) (t fn : String) :
    fn ∈ matchTopic (insertRecord m r) t
      ↔ fn ∈ matchTopic m t ∨ (r.topic = t ∧ r.functionIdentifier = fn) := by
  induction m with
  | nil =>
    by_cases h : r.topic = t <;> simp [insertRecord, matchTopic, h, eq_comm]
  | cons hd tl ih =>
    obtain ⟨t', fns⟩ := hd
    by_cases h1 : t' = r.topic
    · by_cases h2 : t' = t
      · have hrt : r.topic = t := h1 ▸ h2
        simp [insertRecord, matchTopic, h2, hrt, eq_comm]
      · have hrt : ¬ r.topic = t := fun h => h2 (h1.trans h)
        simp [insertRecord, matchTopic, h1, h2, hrt]
    · by_cases h2 : t' = t
      · have h1' : ¬ t = r.topic := fun h => h1 (h2.trans h)
        have hrt : ¬ r.topic = t := fun h => h1' h.symm
        simp [insertRecord, matchTopic, h2, h1', hrt]
      · simp [insertRecord, matchTopic, h1, h2, ih]

lemma mem_matchTopic_foldl (subs : List SubscriptionRecord)
    (m : List (String × List String)) (t fn : String) :
    fn ∈ matchTopic (subs.foldl insertRecord m) t
      ↔ fn ∈ matchTopic m t
        ∨ ∃ r ∈ subs, r.topic = t ∧ r.functionIdentifier = fn := by
  induction subs generalizing m with
  | nil => simp
  | cons r rest ih =>
    rw [List.foldl_cons, ih, mem_matchTopic_insertRecord]
    constructor
    · rintro ((h | h) | ⟨r', hr', hp⟩)
      · exact Or.inl h
      · exact Or.inr ⟨r, List.mem_cons_self r rest, h⟩
      · exact Or.inr ⟨r', List.mem_cons_of_mem r hr', hp⟩
    · rintro (h | ⟨r', hr', hp⟩)
      · exact Or.inl (Or.inl h)
      · rcases List.mem_cons.mp hr' with h' | h'
        · exact Or.inl (Or.inr (h' ▸ hp))
        · exact Or.inr ⟨r', h', hp⟩

lemma runOps_result_complete (ops : List IndexOp) :
    ∀ (s0 : List SubscriptionRecord) (t : String) (res : List String),
      (t, res) ∈ runOps (buildMap s0) ops →
      ∃ s, (s = s0 ∨ IndexOp.sync s ∈ ops) ∧ res = matchTopic (buildMap s) t := by
  induction ops with
  | nil => intro s0 t res h; simp [runOps] at h
  | cons op rest ih =>
    intro s0 t res h
    cases op with
    | sync subs =>
      obtain ⟨s, hs, hres⟩ := ih subs t res h
      refine ⟨s, ?_, hres⟩
      cases hs with
      | inl h' => exact Or.inr (h' ▸ List.mem_cons_self _ _)
      | inr h' => exact Or.inr (List.mem_cons_of_mem _ h')
    | matchQ t' =>
      simp only [runOps, List.mem_cons] at h
      cases h with
      | inl h' =>
        rw [Prod.mk.injEq] at h'
        obtain ⟨ht, hres⟩ := h'
        exact ⟨s0, Or.inl rfl, by rw [hres, ← ht]⟩
      | inr h' =>
        obtain ⟨s, hs, hres⟩ := ih s0 t res h'
        refine ⟨s, ?_, hres⟩
        cases hs with
        | inl h'' => exact Or.inl h''
        | inr h'' => exact Or.inr (List.mem_cons_of_mem _ h'')

/-- Claim C5: after a sync of `subs`, `matchTopic` returns for every topic
exactly the identifiers having a record with that topic in `subs` — no
more, no fewer; and in any interleaved run of atomic sync/match steps
starting from a synced index, every match result is the complete index of
a single sync (the initial one or one appearing in the run) evaluated at
the queried topic — never a mixture of two. -/
theorem topic_map_sync_match_exact (subs : List SubscriptionRecord) (t fn : String)
    (init : List SubscriptionRecord) (ops : List IndexOp) (res : List String) :
    (fn ∈ matchTopic (buildMap subs) t
      ↔ ∃ r ∈ subs, r.topic = t ∧ r.functionIdentifier = fn)
    ∧ ((t, res) ∈ runOps (buildMap init) ops →
      ∃ s, (s = init ∨ IndexOp.sync s ∈ ops)
        ∧ ∀ g, g ∈ res ↔ ∃ r ∈ s, r.topic = t ∧ r.functionIdentifier = g) := by
  constructor
  · rw [buildMap, mem_matchTopic_foldl]
    simp [matchTopic]
  · intro hmem
    obtain ⟨s, hs, hres⟩ := runOps_result_complete ops init t res hmem
    refine ⟨s, hs, fun g => ?_⟩
    rw [hres, buildMap, mem_matchTopic_foldl]
    simp [matchTopic]

def subsC5 : List SubscriptionRecord :=
  [{ functionIdentifier := "f1", topic := "orders" },
   { functionIdentifier := "f2", topic := "orders" },
   { functionIdentifier := "f1", topic := "payments" }]

def opsC5 : List IndexOp := [IndexOp.sync subsC5, IndexOp.matchQ "payments"]

/-- Claim C5, witness: syncing the spec's example subscriptions and then
matching "payments" yields exactly the result `["f1"]`, and that result is
explained by one complete sync of the run. -/
theorem topic_map_sync_match_exact_witness :
    ("payments", ["f1"]) ∈ runOps (buildMap []) opsC5
    ∧ ∃ s, (s = [] ∨ IndexOp.sync s ∈ opsC5)
        ∧ ∀ g, g ∈ (["f1"] : List String)
            ↔ ∃ r ∈ s, r.topic = "payments" ∧ r.functionIdentifier = g := by
  have hmem : ("payments", ["f1"]) ∈ runOps (buildMap ([] : List SubscriptionRecord)) opsC5 := by
    decide
  exact ⟨hmem,
    (topic_map_sync_match_exact subsC5 "payments" "f1" [] opsC5 ["f1"]).2 hmem⟩

/-- Claim C6: a consumed message with empty payload produces zero events
besides its offset mark (no HTTP invocation), and a message — of any
payload — on a topic with zero current subscribers produces zero HTTP
POSTs while its offset is still marked exactly once. -/
theorem empty_or_unsubscribed_message_still_marked (cfg : connectorConfig)
    (mt : String → List String) (oracle : String → HttpResult)
    (msg : ConsumerMessage) :
    (msg.value = [] →
      consumerStep cfg mt oracle (.message true msg)
        = [Event.markOffset msg.topic msg.partition msg.offset])
    ∧ (mt msg.topic = [] →
      httpPosts (consumerStep cfg mt oracle (.message true msg)) = []
      ∧ (consumerStep cfg mt oracle (.message true msg)).filterMap markData
          = [(msg.topic, msg.partition, msg.offset)]) := by
  constructor
  · intro hval
    show mcb cfg mt oracle msg ++ [Event.markOffset _ _ _] = _
    rw [mcb, if_neg (by simp [hval])]
    rfl
  · intro hmt
    have hmcb : mcb cfg mt oracle msg = [] := by
      rw [mcb, hmt]
      split
      · rfl
      · rfl
    constructor
    · show httpPosts (mcb cfg mt oracle msg ++ [Event.markOffset _ _ _]) = []
      rw [hmcb]
      rfl
    · show (mcb cfg mt oracle msg ++ [Event.markOffset _ _ _]).filterMap markData = _
      rw [hmcb]
      rfl

def msgC6 : ConsumerMessage := { topic := "T", partition := 2, offset := 7, value := [] }

def mtEmpty : String → List String := fun _ => []

/-- Claim C6, witness: a concrete empty-payload message on a topic with no
subscribers yields only its offset mark and no HTTP POST. -/
theorem empty_or_unsubscribed_message_still_marked_witness :
    msgC6.value = []
    ∧ mtEmpty msgC6.topic = []
    ∧ consumerStep cfgC1 mtEmpty oracleC1ok (.message true msgC6)
        = [Event.markOffset "T" 2 7]
    ∧ httpPosts (consumerStep cfgC1 mtEmpty oracleC1ok (.message true msgC6)) = []
    ∧ (consumerStep cfgC1 mtEmpty oracleC1ok (.message true msgC6)).filterMap markData
        = [("T", 2, 7)] := by
  have h := empty_or_unsubscribed_message_still_marked cfgC1 mtEmpty oracleC1ok msgC6
  exact ⟨rfl, rfl, h.1 rfl, (h.2 rfl).1, (h.2 rfl).2⟩

/-- Claim C7: the connect loop breaks out exactly when an attempt yields a
non-nil client and a nil error; on every failed attempt it closes the
partially-constructed handle when one exists (and nothing otherwise) and
backs off for the fixed 1 second; over any finite stream of attempts the
loop is still retrying (never fatal) precisely when no attempt succeeded,
and when it returns a client, that client came from a successful attempt
of the stream. -/
theorem connect_loop_retries_until_success (c : Option Client) (e : Option String)
    (attempts : List (Option Client × Option String)) :
    ((connectAttempt c e).breakLoop = (c.isSome && e.isNone))
    ∧ ((connectAttempt c e).breakLoop = false →
        (connectAttempt c e).closedClient = c ∧ (connectAttempt c e).sleepSeconds = 1)
    ∧ (connectLoop attempts = none
        ↔ ∀ p ∈ attempts, (p.1.isSome && p.2.isNone) = false)
    ∧ (∀ cl : Client, connectLoop attempts = some cl →
        ∃ p ∈ attempts, p.1 = some cl ∧ p.2 = none) := by
  refine ⟨?_, ?_, ?_, ?_⟩
  · cases c <;> cases e <;> simp [connectAttempt]
  · intro hb
    cases c <;> cases e <;> simp_all [connectAttempt]
  · induction attempts with
    | nil => simp [connectLoop]
    | cons p rest ih =>
      obtain ⟨c', e'⟩ := p
      by_cases h : (c'.isSome && e'.isNone) = true
      · have hb : (connectAttempt c' e').breakLoop = true := by
          cases c' <;> cases e' <;> simp_all [connectAttempt]
        obtain ⟨cv, rfl⟩ : ∃ cv, c' = some cv := by
          cases c' <;> simp_all
        have hL : ¬ connectLoop ((some cv, e') :: rest) = none := by
          rw [connectLoop, if_pos hb]
          simp
        have hR : ¬ ∀ p ∈ (some cv, e') :: rest, (p.1.isSome && p.2.isNone) = false := by
          intro hall
          have hh := hall (some cv, e') (List.mem_cons_self _ _)
          rw [h] at hh
          exact absurd hh (by simp)
        exact iff_of_false hL hR
      · have hb : (connectAttempt c' e').breakLoop = false := by
          cases c' <;> cases e' <;> simp_all [connectAttempt]
        have hf : (c'.isSome && e'.isNone) = false := by
          revert h
          cases (c'.isSome && e'.isNone) <;> simp
        rw [connectLoop, if_neg (by simp [hb]), ih]
        constructor
        · intro hall q hq
          rcases List.mem_cons.mp hq with hq' | hq'
          · rw [hq']
            exact hf
          · exact hall q hq'
        · intro hall q hq
          exact hall q (List.mem_cons_of_mem _ hq)
  · induction attempts with
    | nil => intro cl h; simp [connectLoop] at h
    | cons p rest ih =>
      intro cl h
      obtain ⟨c', e'⟩ := p
      by_cases hb : (connectAttempt c' e').breakLoop = true
      · rw [connectLoop, if_pos hb] at h
        have hce : c'.isSome = true ∧ e'.isNone = true := by
          cases c' <;> cases e' <;> simp_all [connectAttempt]
        refine ⟨(c', e'), List.mem_cons_self _ _, ?_, ?_⟩
        · exact h
        · cases e'
          · rfl
          · simp at hce
      · rw [connectLoop, if_neg hb] at h
        obtain ⟨q, hq, hqp⟩ := ih cl h
        exact ⟨q, List.mem_cons_of_mem _ hq, hqp⟩

def attemptsC7 : List (Option Client × Option String) :=
  [(none, some "dns failure"), (some 3, some "not ready"), (some 7, none)]

/-- Claim C7, witness: on a concrete attempt stream the failed attempt
with a partially-constructed handle closes it and sleeps 1 second, the
loop exits with the third attempt's client, and that client belongs to a
successful attempt of the stream. -/
theorem connect_loop_retries_until_success_witness :
    (connectAttempt (some 3) (some "not ready")).breakLoop = false
    ∧ (connectAttempt (some 3) (some "not ready")).closedClient = some 3
    ∧ (connectAttempt (some 3) (some "not ready")).sleepSeconds = 1
    ∧ connectLoop attemptsC7 = some 7
    ∧ ∃ p ∈ attemptsC7, p.1 = some 7 ∧ p.2 = none := by
  have h := connect_loop_retries_until_success (some 3) (some "not ready") attemptsC7
  have hb : (connectAttempt (some 3) (some "not ready")).breakLoop = false := by decide
  have hloop : connectLoop attemptsC7 = some 7 := by decide
  exact ⟨hb, (h.2.1 hb).1, (h.2.1 hb).2, hloop, h.2.2.2 7 hloop⟩

/-- Claim C8: when `upstream_timeout` and `rebuild_interval` are set to
strings that do not parse as durations, every configuration the builder
returns carries the defaults (30 seconds and 3 seconds), and the builder
succeeds exactly when the topic list is non-empty — a duration parse
error is never surfaced as a failure. -/
theorem bad_duration_keeps_defaults (pd : String → Option Duration) (env : Env)
    (v w : String)
    (h1 : env "upstream_timeout" = some v) (h2 : pd v = none)
    (h3 : env "rebuild_interval" = some w) (h4 : pd w = none) :
    (∀ cfg, buildConnectorConfig pd env = .ok cfg →
      cfg.upstreamTimeout = 30 * second ∧ cfg.rebuildInterval = 3 * second)
    ∧ ((∃ cfg, buildConnectorConfig pd env = .ok cfg) ↔ ¬ topicsFrom env = []) := by
  have hb : buildConnectorConfig pd env
      = if (topicsFrom env).length = 0 then Except.error topicsFatalMessage
        else Except.ok { gatewayURL := (env "gateway_url").getD "http://gateway:8080",
                         upstreamTimeout := 30 * second,
                         topics := topicsFrom env,
                         printResponse := false,
                         rebuildInterval := 3 * second,
                         broker := (env "broker_host").getD "kafka" } := by
    simp only [buildConnectorConfig, h1, h2, h3, h4, Option.getD_none]
  constructor
  · intro cfg hok
    rw [hb] at hok
    by_cases htl : (topicsFrom env).length = 0
    · rw [if_pos htl] at hok
      cases hok
    · rw [if_neg htl] at hok
      injection hok with h'
      subst h'
      exact ⟨rfl, rfl⟩
  · constructor
    · rintro ⟨cfg, hok⟩ hnil
      rw [hb] at hok
      have htl : (topicsFrom env).length = 0 := by rw [hnil]; rfl
      rw [if_pos htl] at hok
      cases hok
    · intro hne
      have htl : ¬ (topicsFrom env).length = 0 := fun h0 =>
        hne (List.length_eq_zero.mp h0)
      exact ⟨_, by rw [hb, if_neg htl]⟩

def pdNone : String → Option Duration := fun _ => none

def envC8 : Env := fun k =>
  if k = "topics" then some "a"
  else if k = "upstream_timeout" then some "bogus"
  else if k = "rebuild_interval" then some "nope"
  else none

/-- Claim C8, witness: with both duration variables set to unparseable
strings and a valid topic list, the builder returns a configuration, and
any configuration it returns keeps the 30-second and 3-second defaults. -/
theorem bad_duration_keeps_defaults_witness :
    envC8 "upstream_timeout" = some "bogus"
    ∧ pdNone "bogus" = none
    ∧ envC8 "rebuild_interval" = some "nope"
    ∧ pdNone "nope" = none
    ∧ (∃ cfg, buildConnectorConfig pdNone envC8 = .ok cfg)
    ∧ (∀ cfg, buildConnectorConfig pdNone envC8 = .ok cfg →
        cfg.upstreamTimeout = 30 * second ∧ cfg.rebuildInterval = 3 * second) := by
  have h := bad_duration_keeps_defaults pdNone envC8 "bogus" "nope" rfl rfl rfl rfl
  refine ⟨rfl, rfl, rfl, rfl, h.2.mpr (by decide), h.1⟩

lemma buildConnectorConfig_printResponse (pd : String → Option Duration) (env : Env)
    (cfg : connectorConfig) (hok : buildConnectorConfig pd env = .ok cfg) :
    cfg.printResponse = false := by
  simp only [buildConnectorConfig] at hok
  split at hok
  · cases hok
  · injection hok with h'
    subst h'
    rfl

lemma logResponse_body_none (cfg : connectorConfig) (hpr : cfg.printResponse = false)
    (oracle : String → HttpResult) (payload : List UInt8) (fns : List String) :
    ∀ s fn b, Event.logResponse s fn b ∈ dispatchLoop cfg oracle payload fns →
      b = none := by
  induction fns with
  | nil => intro s fn b h; simp [dispatchLoop] at h
  | cons f rest ih =>
    intro s fn b h
    cases ho : oracle f with
    | transportError e =>
      simp [dispatchLoop, ho] at h
    | response status body =>
      match body with
      | none =>
        simp [dispatchLoop, ho] at h
        exact ih s fn b h
      | some (bytesOut, readErr) =>
        cases readErr <;>
          · simp [dispatchLoop, ho, hpr] at h
            rcases h with ⟨hs, hf, hb⟩ | h
            · exact hb
            · exact ih s fn b h

/-- Claim C9: every configuration the builder returns has
`printResponse = false` (no configuration source sets it), and therefore
every response log event emitted by the dispatch callback carries no
response body — only the status code and function identifier. -/
theorem log_response_excludes_body (pd : String → Option Duration) (env : Env)
    (cfg : connectorConfig) (mt : String → List String)
    (oracle : String → HttpResult) (msg : ConsumerMessage)
    (s : Int) (fn : String) (b : Option (List UInt8))
    (hok : buildConnectorConfig pd env = .ok cfg)
    (hmem : Event.logResponse s fn b ∈ mcb cfg mt oracle msg) :
    cfg.printResponse = false ∧ b = none := by
  have hpr := buildConnectorConfig_printResponse pd env cfg hok
  refine ⟨hpr, ?_⟩
  have hmem' : Event.logResponse s fn b ∈ dispatchLoop cfg oracle msg.value (mt msg.topic) := by
    simp only [mcb] at hmem
    split at hmem
    · exact hmem
    · exact absurd hmem (List.not_mem_nil _)
  exact logResponse_body_none cfg hpr oracle msg.value (mt msg.topic) s fn b hmem'

def cfgC9 : connectorConfig :=
  { gatewayURL := "http://gateway:8080", upstreamTimeout := 30 * second,
    topics := ["a"], printResponse := false,
    rebuildInterval := 3 * second, broker := "kafka" }

def mtC9 : String → List String := fun _ => ["f1"]

def oracleC9 : String → HttpResult := fun _ => .response 200 (some ([7], false))

def msgC9 : ConsumerMessage := { topic := "a", partition := 0, offset := 1, value := [1, 2] }

/-- Claim C9, witness: the configuration built from a concrete environment
has `printResponse = false`, and the concrete dispatch trace's response
log event carries no body. -/
theorem log_response_excludes_body_witness :
    buildConnectorConfig pdNone envC8 = .ok cfgC9
    ∧ Event.logResponse 200 "f1" none ∈ mcb cfgC9 mtC9 oracleC9 msgC9
    ∧ cfgC9.printResponse = false ∧ (none : Option (List UInt8)) = none := by
  have hok : buildConnectorConfig pdNone envC8 = .ok cfgC9 := rfl
  have hmem : Event.logResponse 200 "f1" none ∈ mcb cfgC9 mtC9 oracleC9 msgC9 := by
    decide
  exact ⟨hok, hmem,
    log_response_excludes_body pdNone envC8 cfgC9 mtC9 oracleC9 msgC9 200 "f1" none hok hmem⟩

lemma foldl_append_filter (l : List String) (acc : List String) :
    l.foldl (fun acc t => if 0 < t.length then acc ++ [t] else acc) acc
      = acc ++ l.filter (fun t => decide (0 < t.length)) := by
  induction l generalizing acc with
  | nil => simp
  | cons hd tl ih =>
    by_cases h : 0 < hd.length
    · rw [List.foldl_cons, if_pos h, ih,
        List.filter_cons_of_pos (by simpa using h), List.append_assoc]
      rfl
    · rw [List.foldl_cons, if_neg h, ih,
        List.filter_cons_of_neg (by simpa using h)]

/-- Claim C10: when the `topics` variable is set, the configured topic
list is exactly the comma-separated segments with the empty ones
discarded, in order; an unset variable yields the empty list; an empty
topic list makes the builder fail fatally with the startup error; and the
value "," (only empty segments) splits to the empty list. -/
theorem topics_split_and_fatal (pd : String → Option Duration) (env : Env) :
    (∀ val, env "topics" = some val →
      topicsFrom env = (stringsSplitComma val).filter (fun t => decide (0 < t.length)))
    ∧ (topicsFrom env = [] → buildConnectorConfig pd env = .error topicsFatalMessage)
    ∧ (env "topics" = none → topicsFrom env = [])
    ∧ splitTopics "," = [] := by
  refine ⟨?_, ?_, ?_, by decide⟩
  · intro val hval
    unfold topicsFrom
    rw [hval]
    show splitTopics val = _
    rw [splitTopics, foldl_append_filter]
    exact List.nil_append _
  · intro hnil
    have htl : (topicsFrom env).length = 0 := by rw [hnil]; rfl
    simp only [buildConnectorConfig]
    rw [if_pos htl]
  · intro hnone
    unfold topicsFrom
    rw [hnone]

def envTopics : Env := fun k => if k = "topics" then some "a,,b" else none

def envNoTopics : Env := fun _ => none

/-- Claim C10, witness: the value "a,,b" yields exactly the topic list
["a", "b"], and with the variable unset the builder fails with the fatal
startup error. -/
theorem topics_split_and_fatal_witness :
    envTopics "topics" = some "a,,b"
    ∧ topicsFrom envTopics
        = (stringsSplitComma "a,,b").filter (fun t => decide (0 < t.length))
    ∧ topicsFrom envTopics = ["a", "b"]
    ∧ envNoTopics "topics" = none
    ∧ topicsFrom envNoTopics = []
    ∧ buildConnectorConfig pdNone envNoTopics = .error topicsFatalMessage := by
  have h := topics_split_and_fatal pdNone envTopics
  have h' := topics_split_and_fatal pdNone envNoTopics
  have hempty : topicsFrom envNoTopics = [] := h'.2.2.1 rfl
  exact ⟨rfl, h.1 "a,,b" rfl, by decide, rfl, hempty, h'.2.1 hempty⟩

end KafkaConnector
